import Mathlib

/-!
Verification of the spectrogram-capture and watertight-mesh-export engine of
the dialup visualizer (src/script.js) against its natural-language
specification.

Shallow embedding conventions:
* JavaScript floating-point scalars are modelled as exact rationals; the
  only transcendental operation of the program, Math.pow with a fractional
  exponent, is modelled by Real.rpow on the real numbers.
* JavaScript arrays are Lean lists; in-bounds indexing is modelled with
  List.getD, whose default is never reached on the index ranges the source
  actually uses.
* The module-level constants of src/script.js are Lean definitions of the
  same names.
-/

/-- analyser.fftSize = 1024 gives 512 frequency bins (src/script.js line 18, 23). -/
def freqBinCount : ℕ := 512

/-- pointsPerSlice = 128 (line 65). -/
def pointsPerSlice : ℕ := 128

/-- sliceStride = Math.floor(freqBinCount / pointsPerSlice) (line 66). -/
def sliceStride : ℕ := freqBinCount / pointsPerSlice

/-- activeFrequencyFraction = 0.75 (line 68). -/
def activeFrequencyFraction : ℚ := 3 / 4

/-- frequencyExponent = 0.65 (line 69); used as a real exponent. -/
noncomputable def frequencyExponent : ℝ := 13 / 20

/-- noiseFloor = 0.03 (line 70). -/
def noiseFloor : ℚ := 3 / 100

/-- numSlices = 1024 (line 72). -/
def numSlices : ℕ := 1024

/-- width = 400 (line 73). -/
def width : ℚ := 400

/-- depth = 80 (line 74). -/
def depth : ℚ := 80

/-- heightScale = 0.6 (line 75). -/
def heightScale : ℚ := 3 / 5

/-- baseThickness = 4 (line 128). -/
def baseThickness : ℚ := 4

/-- activeRows = Math.max(2, Math.floor(pointsPerSlice * activeFrequencyFraction))
(line 101). -/
def activeRows : ℕ := max 2 (Nat.floor ((pointsPerSlice : ℚ) * activeFrequencyFraction))

unseal Rat.add Rat.mul Rat.inv Rat.sub in
theorem activeRows_eq : activeRows = 96 := by decide

/-- An RGB color triple. -/
abbrev Col3 := ℚ × ℚ × ℚ

/-- The seven ramp stops of referenceColorRamp (lines 191-199): positions
0.00, 0.15, 0.30, 0.45, 0.65, 0.82, 1.00 with the colors written there. -/
def rampStops : List (ℚ × Col3) :=
  [ (0, (11/20, 0, 0)),
    (3/20, (1, 13/100, 0)),
    (3/10, (1, 3/4, 0)),
    (9/20, (1, 1, 0)),
    (13/20, (3/25, 43/50, 1)),
    (41/50, (0, 23/50, 1)),
    (1, (0, 3/25, 7/10)) ]

/-- Per-channel linear interpolation between two stops at clamped input v
(lines 205-211): t01 = (v - a.s) / (b.s - a.s), channel = a.c + (b.c - a.c) * t01. -/
def rampLerp (a b : ℚ × Col3) (v : ℚ) : Col3 :=
  let t01 := (v - a.1) / (b.1 - a.1)
  (a.2.1 + (b.2.1 - a.2.1) * t01,
   a.2.2.1 + (b.2.2.1 - a.2.2.1) * t01,
   a.2.2.2 + (b.2.2.2 - a.2.2.2) * t01)

/-- The segment-search loop of referenceColorRamp (lines 202-215): walk the
consecutive stop pairs, interpolate in the first segment with
a.s <= v <= b.s, and fall back to the last stop color. -/
def rampSegment (v : ℚ) : List (ℚ × Col3) → Col3
  | a :: b :: rest =>
      if a.1 ≤ v ∧ v ≤ b.1 then rampLerp a b v else rampSegment v (b :: rest)
  | [a] => a.2
  | [] => (0, 0, 0)

/-- referenceColorRamp (lines 189-216): clamp the input to [0,1] with
Math.min(1, Math.max(0, t)), then look up the segment. -/
def referenceColorRamp (t : ℚ) : Col3 :=
  rampSegment (min 1 (max 0 t)) rampStops

theorem rampClamp_of_nonpos {v : ℚ} (h : v ≤ 0) : min 1 (max 0 v) = 0 := by
  rw [max_eq_left h]
  norm_num

theorem rampClamp_of_ge_one {v : ℚ} (h : 1 ≤ v) : min 1 (max 0 v) = 1 := by
  rw [max_eq_right (le_trans zero_le_one h), min_eq_left h]

unseal Rat.add Rat.mul Rat.inv Rat.sub in
theorem ramp_at_zero : referenceColorRamp 0 = (11/20, 0, 0) := by decide

unseal Rat.add Rat.mul Rat.inv Rat.sub in
theorem ramp_at_one : referenceColorRamp 1 = (0, 3/25, 7/10) := by decide

/-- C7. Color ramp boundary behaviour: referenceColorRamp applied to 0 is
exactly the first stop color (0.55, 0, 0); applied to 1 it is exactly the last
stop color (0, 0.12, 0.70); every input below 0 yields referenceColorRamp 0 and
every input above 1 yields referenceColorRamp 1, because the input is clamped
to [0,1] before the segment lookup. -/
theorem ramp_boundary :
    referenceColorRamp 0 = (11/20, 0, 0) ∧
    referenceColorRamp 1 = (0, 3/25, 7/10) ∧
    (∀ v : ℚ, v < 0 → referenceColorRamp v = referenceColorRamp 0) ∧
    (∀ v : ℚ, 1 < v → referenceColorRamp v = referenceColorRamp 1) := by
  refine ⟨ramp_at_zero, ramp_at_one, ?_, ?_⟩
  · intro v hv
    unfold referenceColorRamp
    rw [rampClamp_of_nonpos hv.le, rampClamp_of_nonpos le_rfl]
  · intro v hv
    unfold referenceColorRamp
    rw [rampClamp_of_ge_one hv.le, rampClamp_of_ge_one le_rfl]

/-- Witness for C7: the clamping clauses evaluated at concrete out-of-range
inputs. -/
theorem ramp_boundary_witness :
    referenceColorRamp (-5) = referenceColorRamp 0 ∧
    referenceColorRamp 7 = referenceColorRamp 1 :=
  ⟨ramp_boundary.2.2.1 (-5) (by norm_num), ramp_boundary.2.2.2 7 (by norm_num)⟩

/-! ## Frequency-axis mapping (zRowPositions, lines 98-111, and the inline
recomputation of the exporter, lines 654-689) -/

/-- zMin = -depth / 2 (line 99). -/
noncomputable def zMin : ℝ := -(depth : ℝ) / 2

/-- zMax = depth / 2 (line 100). -/
noncomputable def zMax : ℝ := (depth : ℝ) / 2

/-- The precomputed live-view row coordinate (lines 103-111): for z < activeRows,
zMin + (z / (activeRows - 1))^frequencyExponent * (zMax - zMin); collapsed rows
map to zMax. -/
noncomputable def zRowPositions (z : ℕ) : ℝ :=
  if z < activeRows then
    zMin + Real.rpow ((z : ℝ) / ((activeRows : ℝ) - 1)) frequencyExponent * (zMax - zMin)
  else zMax

/-- activeRowsCount, recomputed inside buildOBJFromCaptured with the same
formula as activeRows (line 587). -/
def activeRowsCount : ℕ := max 2 (Nat.floor ((pointsPerSlice : ℚ) * activeFrequencyFraction))

theorem activeRowsCount_eq : activeRowsCount = activeRows := rfl

/-- bins = activeRowsCount + 1 (line 589). -/
def bins : ℕ := activeRowsCount + 1

/-- z0 = -depth / 2 (line 594). -/
noncomputable def z0 : ℝ := -(depth : ℝ) / 2

/-- The row coordinate recomputed inline by the exporter (lines 655-663, and
identically at lines 679-686 and 805-811): for j < activeRowsCount,
z0 + (j / (activeRowsCount - 1))^frequencyExponent * depth, else z0 + depth. -/
noncomputable def zRowExport (j : ℕ) : ℝ :=
  if j < activeRowsCount then
    z0 + Real.rpow ((j : ℝ) / ((activeRowsCount : ℝ) - 1)) frequencyExponent * (depth : ℝ)
  else z0 + (depth : ℝ)

/-- C5. The exporter and the live view use identical row coordinates: for every
row j < activeRows the inline recomputation zRowExport j equals the precomputed
live-view value zRowPositions j, and at the boundary row j = activeRows the
exporter coordinate equals zMax. -/
theorem export_z_matches_live :
    (∀ j, j < activeRows → zRowExport j = zRowPositions j) ∧
    zRowExport activeRows = zMax := by
  constructor
  · intro j hj
    unfold zRowExport zRowPositions
    rw [activeRowsCount_eq, if_pos hj, if_pos hj]
    unfold z0 zMin zMax
    ring
  · unfold zRowExport
    rw [activeRowsCount_eq, if_neg (lt_irrefl activeRows)]
    unfold z0 zMax
    ring

unseal Rat.add Rat.mul Rat.inv Rat.sub in
theorem export_z_matches_live_witness : zRowExport 5 = zRowPositions 5 :=
  export_z_matches_live.1 5 (by decide)

theorem frequencyExponent_pos : (0 : ℝ) < frequencyExponent := by
  unfold frequencyExponent
  norm_num

/-- C8. Row mapping monotonicity: the live-view row coordinate is strictly
increasing on the active band (z1 < z2 < activeRows implies
zRowPositions z1 < zRowPositions z2), and constant equal to the upper bound
zMax = depth / 2 for every z at or beyond activeRows. -/
theorem zRow_monotone :
    (∀ z1 z2, z1 < z2 → z2 < activeRows → zRowPositions z1 < zRowPositions z2) ∧
    (∀ z, activeRows ≤ z → zRowPositions z = zMax) := by
  constructor
  · intro z1 z2 h12 h2
    unfold zRowPositions
    rw [if_pos (lt_trans h12 h2), if_pos h2]
    have hA : (0 : ℝ) < (activeRows : ℝ) - 1 := by
      rw [activeRows_eq]
      norm_num
    have ht : (z1 : ℝ) / ((activeRows : ℝ) - 1) < (z2 : ℝ) / ((activeRows : ℝ) - 1) :=
      (div_lt_div_iff_of_pos_right hA).2 (by exact_mod_cast h12)
    have hkey :=
      Real.rpow_lt_rpow (div_nonneg (Nat.cast_nonneg z1) hA.le) ht frequencyExponent_pos
    have hspan : (0 : ℝ) < zMax - zMin := by
      unfold zMax zMin depth
      norm_num
    have hmul : Real.rpow ((z1 : ℝ) / ((activeRows : ℝ) - 1)) frequencyExponent * (zMax - zMin) <
        Real.rpow ((z2 : ℝ) / ((activeRows : ℝ) - 1)) frequencyExponent * (zMax - zMin) :=
      mul_lt_mul_of_pos_right hkey hspan
    linarith
  · intro z hz
    unfold zRowPositions
    rw [if_neg (not_lt.2 hz)]

unseal Rat.add Rat.mul Rat.inv Rat.sub in
theorem zRow_monotone_witness :
    zRowPositions 1 < zRowPositions 2 ∧ zRowPositions 130 = zMax :=
  ⟨zRow_monotone.1 1 2 (by decide) (by decide), zRow_monotone.2 130 (by decide)⟩

/-! ## Slice normalization (updateSurfaceFromFrequencies, lines 131-143) -/

/-- The perceptual emphasis exponent 1.2 (line 141). -/
noncomputable def emphasisExponent : ℝ := 6 / 5

/-- The raw byte sampled for output row i (line 137):
freqData[min(freqBinCount - 1, i * sliceStride)]. -/
def sampledRaw (freqData : List ℕ) (i : ℕ) : ℕ :=
  freqData.getD (min (freqBinCount - 1) (i * sliceStride)) 0

/-- The noise-gated bin value (lines 138-139): bin = raw / 255, forced to 0
when bin < noiseFloor and i >= activeRows. -/
def gatedBin (raw i : ℕ) : ℚ :=
  let bin : ℚ := (raw : ℚ) / 255
  if bin < noiseFloor ∧ activeRows ≤ i then 0 else bin

/-- The normalized slice value for row i (lines 136-142):
Math.pow(gated bin, 1.2). -/
noncomputable def normalizeSlice (freqData : List ℕ) (i : ℕ) : ℝ :=
  Real.rpow ((gatedBin (sampledRaw freqData i) i : ℚ) : ℝ) emphasisExponent

/-- C6. Noise gating in slice normalization: for every raw magnitude array and
collapsed row i >= activeRows whose sampled value divided by 255 is strictly
below noiseFloor, the normalized output is exactly 0 (the emphasis exponent
preserves the zero); for every active row i < activeRows the gate is never
applied and the output equals (raw / 255)^1.2 no matter how small the raw
value is. -/
theorem noise_gate :
    ∀ (freqData : List ℕ) (i : ℕ),
      (activeRows ≤ i → (sampledRaw freqData i : ℚ) / 255 < noiseFloor →
        normalizeSlice freqData i = 0) ∧
      (i < activeRows →
        normalizeSlice freqData i =
          Real.rpow ((sampledRaw freqData i : ℝ) / 255) emphasisExponent) := by
  intro freqData i
  constructor
  · intro hi hfloor
    unfold normalizeSlice gatedBin
    rw [if_pos ⟨hfloor, hi⟩]
    push_cast
    exact Real.zero_rpow (by unfold emphasisExponent; norm_num)
  · intro hi
    unfold normalizeSlice gatedBin
    rw [if_neg (by intro hc; exact absurd hc.2 (not_le.2 hi))]
    push_cast
    rfl

unseal Rat.add Rat.mul Rat.inv Rat.sub in
theorem noise_gate_witness :
    normalizeSlice [200] 100 = 0 ∧
    normalizeSlice [200] 0 = Real.rpow ((sampledRaw [200] 0 : ℝ) / 255) emphasisExponent :=
  ⟨(noise_gate [200] 100).1 (by decide) (by decide), (noise_gate [200] 0).2 (by decide)⟩

/-! ## Live surface buffer (updateSurfaceFromFrequencies, lines 150-184) -/

/-- The (height, color) pair written into a surface cell for amplitude a:
height = a * depth * heightScale (line 170), color = referenceColorRamp a
(lines 174-179). -/
def surfEntry (a : ℚ) : ℚ × Col3 := (a * depth * heightScale, referenceColorRamp a)

/-- One advance of the live surface buffer (lines 153-180): for every
frequency row the column window shifts left by one, discarding the oldest
column, and the new slice values are written into the rightmost column. The
grid is modelled row-major: pointsPerSlice rows, each a list of numSlices
(height, color) entries. -/
def advanceSurface (buf : List (List (ℚ × Col3))) (s : List ℚ) : List (List (ℚ × Col3)) :=
  (List.range pointsPerSlice).map
    (fun z => (buf.getD z []).drop 1 ++ [surfEntry (s.getD z 0)])

theorem getD_range_map {α : Type} (f : ℕ → α) (n z : ℕ) (d : α) (hz : z < n) :
    ((List.range n).map f).getD z d = f z := by
  rw [List.getD_eq_getElem?_getD, List.getElem?_map, List.getElem?_range hz]
  rfl

theorem advanceSurface_row (buf : List (List (ℚ × Col3))) (s : List ℚ) (z : ℕ)
    (hz : z < pointsPerSlice) :
    (advanceSurface buf s).getD z [] = (buf.getD z []).drop 1 ++ [surfEntry (s.getD z 0)] :=
  getD_range_map _ _ _ _ hz

theorem foldl_shift_append {α β : Type} (g : β → α) :
    ∀ (es : List β) (r : List α), 1 ≤ r.length →
      es.foldl (fun acc e => acc.drop 1 ++ [g e]) r = (r ++ es.map g).drop es.length := by
  intro es
  induction es with
  | nil => intro r h; simp
  | cons e es ih =>
      intro r hr
      have hlen : 1 ≤ (r.drop 1 ++ [g e]).length := by
        simp
      calc (e :: es).foldl (fun acc x => acc.drop 1 ++ [g x]) r
          = es.foldl (fun acc x => acc.drop 1 ++ [g x]) (r.drop 1 ++ [g e]) := rfl
        _ = ((r.drop 1 ++ [g e]) ++ es.map g).drop es.length := ih _ hlen
        _ = (r.drop 1 ++ (g e :: es.map g)).drop es.length := by
              rw [List.append_assoc, List.singleton_append]
        _ = ((r ++ (g e :: es.map g)).drop 1).drop es.length := by
              rw [List.drop_append_of_le_length hr]
        _ = (r ++ (e :: es).map g).drop (es.length + 1) := by
              rw [List.drop_drop, Nat.add_comm 1 es.length]
              rfl
        _ = (r ++ (e :: es).map g).drop ((e :: es).length) := by
              rw [List.length_cons]

theorem foldl_advanceSurface_row (z : ℕ) (hz : z < pointsPerSlice) :
    ∀ (ss : List (List ℚ)) (buf : List (List (ℚ × Col3))),
      (ss.foldl advanceSurface buf).getD z [] =
        ss.foldl (fun r s => r.drop 1 ++ [surfEntry (s.getD z 0)]) (buf.getD z []) := by
  intro ss
  induction ss with
  | nil => intro buf; rfl
  | cons s ss ih =>
      intro buf
      calc ((s :: ss).foldl advanceSurface buf).getD z []
          = (ss.foldl advanceSurface (advanceSurface buf s)).getD z [] := rfl
        _ = ss.foldl (fun r t => r.drop 1 ++ [surfEntry (t.getD z 0)])
              ((advanceSurface buf s).getD z []) := ih _
        _ = ss.foldl (fun r t => r.drop 1 ++ [surfEntry (t.getD z 0)])
              ((buf.getD z []).drop 1 ++ [surfEntry (s.getD z 0)]) := by
              rw [advanceSurface_row buf s z hz]
        _ = (s :: ss).foldl (fun r t => r.drop 1 ++ [surfEntry (t.getD z 0)])
              (buf.getD z []) := rfl

/-- C9. Strict sliding window of the live surface buffer: starting from any
well-formed buffer (pointsPerSlice rows of numSlices columns), after advancing
once per slice of a list of numSlices + 1 slices, column k of row z holds
exactly the surface entry (height and color) derived from slice k + 1 of the
list (0-based), i.e. from slice s(k+2) in 1-based counting; in particular the
leftmost column (k = 0) holds the values of the second inserted slice, the
very first having been evicted. Each advance discards exactly the oldest
column and appends the new slice as the rightmost column (advanceSurface_row). -/
theorem sliding_window :
    ∀ (buf : List (List (ℚ × Col3))) (ss : List (List ℚ)) (z k : ℕ),
      buf.length = pointsPerSlice →
      (∀ r ∈ buf, r.length = numSlices) →
      ss.length = numSlices + 1 →
      z < pointsPerSlice → k < numSlices →
      ((ss.foldl advanceSurface buf).getD z []).getD k (0, 0, 0, 0) =
        surfEntry ((ss.getD (k + 1) []).getD z 0) := by
  intro buf ss z k hb hr hs hz hk
  rw [foldl_advanceSurface_row z hz ss buf]
  have hmem : buf.getD z [] ∈ buf := by
    rw [List.getD_eq_getElem?_getD, List.getElem?_eq_getElem (by rw [hb]; exact hz)]
    exact List.getElem_mem _
  have hrow : (buf.getD z []).length = numSlices := hr _ hmem
  rw [foldl_shift_append (fun s => surfEntry (s.getD z 0)) ss (buf.getD z [])
    (by rw [hrow]; norm_num [numSlices])]
  rw [hs, ← hrow, List.drop_append 1]
  have hk1 : k + 1 < ss.length := by
    rw [hs]
    exact Nat.add_lt_add_right hk 1
  rw [List.getD_eq_getElem?_getD, List.getElem?_drop, List.getElem?_map,
    Nat.add_comm 1 k, List.getElem?_eq_getElem hk1]
  have hgd : ss.getD (k + 1) [] = ss[k + 1] := by
    rw [List.getD_eq_getElem?_getD, List.getElem?_eq_getElem hk1]
    rfl
  rw [hgd]
  rfl

/-- A concrete start buffer for the sliding-window witness: pointsPerSlice
rows of numSlices zeroed entries. -/
def bufInit : List (List (ℚ × Col3)) :=
  List.replicate pointsPerSlice (List.replicate numSlices (0, 0, 0, 0))

/-- A concrete run of numSlices + 1 slices for the sliding-window witness. -/
def ssRun : List (List ℚ) :=
  List.replicate (numSlices + 1) (List.replicate pointsPerSlice 1)

theorem sliding_window_witness :
    ((ssRun.foldl advanceSurface bufInit).getD 0 []).getD 0 (0, 0, 0, 0) =
      surfEntry ((ssRun.getD 1 []).getD 0 0) :=
  sliding_window bufInit ssRun 0 0 (by simp [bufInit])
    (by intro r hr; rw [List.eq_of_mem_replicate hr]; simp)
    (by simp [ssRun]) (by decide) (by decide)

/-! ## Solid mesh construction (buildOBJFromCaptured, lines 584-867)

The builder is embedded in two layers. The computable layer below produces,
in exact source order, the list of faces as they reach emitFace: the three
vertex indices in the order supplied by the caller, the desired outward
direction, and the material key. The orientation step of emitFace (the
possible swap of the last two indices, decided by a real-valued dot product)
is applied on top of this layer by orientFace further down; the swap permutes
a triangle without changing its vertex set or its undirected edges. -/

/-- A captured history: capturedSlices, one list of pointsPerSlice amplitudes
per tick (line 127). -/
abbrev Capture := List (List ℚ)

/-- dx = width / (numSlices - 1) (line 590). -/
def dxStep : ℚ := width / ((numSlices : ℚ) - 1)

/-- x0 = -exportWidth / 2 with exportWidth = dx * (slices - 1) (lines 592-593). -/
def xStart (slices : ℕ) : ℚ := -(dxStep * ((slices : ℚ) - 1)) / 2

/-- flatEps = 0.02 * depth * heightScale (line 650). -/
def flatEps : ℚ := 2 / 100 * depth * heightScale

/-- The amplitude used for top-grid vertex (i, j) (line 664): the captured
value on active rows, and 0 on the boundary row j = activeRowsCount
(collapse highs). -/
def topAmp (hist : Capture) (i j : ℕ) : ℚ :=
  if j < activeRowsCount then (hist.getD i []).getD j 0 else 0

/-- Top-grid vertex height yTop[i][j] (lines 665-667): amp * depth *
heightScale, snapped to exactly 0 when below flatEps. -/
def yTop (hist : Capture) (i j : ℕ) : ℚ :=
  let y := topAmp hist i j * depth * heightScale
  if y < flatEps then 0 else y

/-- The color computed for top-grid vertex (i, j) (line 668); pushV receives
it and drops it, since a vertex line carries only the position (line 620). -/
def topColor (hist : Capture) (i j : ℕ) : Col3 :=
  referenceColorRamp (topAmp hist i j)

/-- One vertex as pushed by pushV (lines 619-623): x and y are exact
rationals; the z coordinate is zRowExport row. -/
structure PreVertex where
  x : ℚ
  y : ℚ
  row : ℕ

/-- indexTop[i][j]: pushV returns the 1-based running vertex count, and the
top grid is pushed first, row-major in i then j (lines 651-671). -/
def idxTop (i j : ℕ) : ℕ := i * bins + j + 1

/-- indexBottom[i][j]: the bottom grid is pushed directly after the
slices * bins top vertices (lines 675-689). -/
def idxBottom (slices i j : ℕ) : ℕ := slices * bins + i * bins + j + 1

/-- The top grid vertices in push order (lines 651-671). -/
def topVertices (hist : Capture) : List PreVertex :=
  (List.range hist.length).flatMap (fun i =>
    (List.range bins).map (fun j =>
      ⟨xStart hist.length + dxStep * (i : ℚ), yTop hist i j, j⟩))

/-- The bottom grid vertices at y = -baseThickness, same segmentation
(lines 675-689). -/
def bottomVertices (hist : Capture) : List PreVertex :=
  (List.range hist.length).flatMap (fun i =>
    (List.range bins).map (fun j =>
      ⟨xStart hist.length + dxStep * (i : ℚ), -baseThickness, j⟩))

/-- All vertices in push order. -/
def preVertices (hist : Capture) : List PreVertex :=
  topVertices hist ++ bottomVertices hist

/-- 8-bit quantization of one color channel (lines 606-608):
Math.round(clamp01(c) * 255) = floor(clamp01(c) * 255 + 1/2). -/
def quantChannel (c : ℚ) : ℤ := Int.floor (min 1 (max 0 c) * 255 + 1 / 2)

/-- The quantized triple keying the material map; it determines the material
name c_r_g_b bijectively (lines 605-615). -/
def matKey (c : Col3) : ℤ × ℤ × ℤ :=
  (quantChannel c.1, quantChannel c.2.1, quantChannel c.2.2)

/-- baseColor = (0.7, 0.7, 0.7) (line 616). -/
def baseColor : Col3 := (7/10, 7/10, 7/10)

/-- baseMat = materialNameForColor(baseColor) (line 617). -/
def baseMat : ℤ × ℤ × ℤ := matKey baseColor

/-- A desired outward direction (lines 642-647). -/
abbrev Vec3Q := ℚ × ℚ × ℚ

def OUT_TOP : Vec3Q := (0, 1, 0)

def OUT_BOTTOM : Vec3Q := (0, -1, 0)

def OUT_FRONT : Vec3Q := (0, 0, 1)

def OUT_BACK : Vec3Q := (0, 0, -1)

def OUT_LEFT : Vec3Q := (-1, 0, 0)

def OUT_RIGHT : Vec3Q := (1, 0, 0)

/-- A face as it reaches emitFace: indices in caller order, desired outward
direction, material key. -/
structure PreFace where
  i1 : ℕ
  i2 : ℕ
  i3 : ℕ
  dir : Vec3Q
  mat : ℤ × ℤ × ℤ

/-- flatCell[i][j] (lines 695-704): all four corner heights of the cell are
exactly 0. -/
def flatCell (hist : Capture) (i j : ℕ) : Bool :=
  decide (yTop hist i j = 0) && decide (yTop hist (i+1) j = 0) &&
  decide (yTop hist i (j+1) = 0) && decide (yTop hist (i+1) (j+1) = 0)

/-- The precomputed boolean grid of flat cells (lines 695-704). -/
def flatGrid (hist : Capture) : List (List Bool) :=
  (List.range (hist.length - 1)).map (fun i =>
    (List.range (bins - 1)).map (fun j => flatCell hist i j))

/-- visited[i][j] lookup. -/
def visGet (vis : List (List Bool)) (i j : ℕ) : Bool :=
  (vis.getD i []).getD j false

/-- visited[i][j] = true. -/
def visSet (vis : List (List Bool)) (i j : ℕ) : List (List Bool) :=
  vis.set i ((vis.getD i []).set j true)

/-- The rectangle-width growth loop (line 728): extend iW while the next cell
in the row is flat and unvisited and iW + 1 < slices - 1. The fuel argument
bounds the iteration count; it is called with fuel = slices, more than the
loop can ever take. -/
def growWidth (flat vis : List (List Bool)) (j limit : ℕ) : ℕ → ℕ → ℕ
  | 0, iW => iW
  | fuel + 1, iW =>
      if decide (iW + 1 < limit) && visGet flat (iW + 1) j && !(visGet vis (iW + 1) j) then
        growWidth flat vis j limit fuel (iW + 1)
      else iW

/-- The inner check of the rectangle-height growth loop (lines 732-734):
every cell of columns i..iW in row jn is flat and unvisited. -/
def rowAllFlat (flat vis : List (List Bool)) (i iW jn : ℕ) : Bool :=
  (List.range (iW + 1 - i)).all (fun o => visGet flat (i + o) jn && !(visGet vis (i + o) jn))

/-- The rectangle-height growth loop (lines 729-736): extend jH while
jH + 1 < bins - 1 and the whole next row of the rectangle is flat and
unvisited. Called with fuel = bins. -/
def growHeight (flat vis : List (List Bool)) (i iW : ℕ) : ℕ → ℕ → ℕ
  | 0, jH => jH
  | fuel + 1, jH =>
      if decide (jH + 1 < bins - 1) && rowAllFlat flat vis i iW (jH + 1) then
        growHeight flat vis i iW fuel (jH + 1)
      else jH

/-- Mark the rectangle i..iW times j..jH visited (lines 744-747). -/
def markVisited (vis : List (List Bool)) (i iW j jH : ℕ) : List (List Bool) :=
  (List.range (jH + 1 - j)).foldl
    (fun v oj => (List.range (iW + 1 - i)).foldl (fun w oi => visSet w (i + oi) (j + oj)) v) vis

/-- scale = depth * heightScale (line 716). -/
def scaleQ : ℚ := depth * heightScale

/-- State of the top-surface triangulation loop: the visited grid and the
faces emitted so far. -/
structure MergeState where
  visited : List (List Bool)
  faces : List PreFace

/-- The body of the top-surface triangulation loop for cell (i, j)
(lines 707-748): skip visited cells; emit two per-cell triangles with
average-amplitude colors for a non-flat cell; otherwise grow a maximal flat
rectangle, emit two triangles over its corners with the base material, and
mark it visited. -/
def topCellStep (hist : Capture) (flat : List (List Bool)) (j : ℕ)
    (st : MergeState) (i : ℕ) : MergeState :=
  let slices := hist.length
  if visGet st.visited i j then st
  else if !(visGet flat i j) then
    let t1 := (yTop hist i j + yTop hist (i+1) j + yTop hist (i+1) (j+1)) / (3 * scaleQ)
    let t2 := (yTop hist i j + yTop hist (i+1) (j+1) + yTop hist i (j+1)) / (3 * scaleQ)
    let c1 := referenceColorRamp (max 0 (min 1 t1))
    let c2 := referenceColorRamp (max 0 (min 1 t2))
    { visited := visSet st.visited i j,
      faces := st.faces ++
        [⟨idxTop i j, idxTop (i+1) j, idxTop (i+1) (j+1), OUT_TOP, matKey c1⟩,
         ⟨idxTop i j, idxTop (i+1) (j+1), idxTop i (j+1), OUT_TOP, matKey c2⟩] }
  else
    let iW := growWidth flat st.visited j (slices - 1) slices i
    let jH := growHeight flat st.visited i iW bins j
    { visited := markVisited st.visited i iW j jH,
      faces := st.faces ++
        [⟨idxTop i j, idxTop (iW+1) j, idxTop (iW+1) (jH+1), OUT_TOP, baseMat⟩,
         ⟨idxTop i j, idxTop (iW+1) (jH+1), idxTop i (jH+1), OUT_TOP, baseMat⟩] }

/-- The top-surface faces with flat-rectangle merging (lines 705-749): outer
loop over j, inner loop over i, starting from an all-false visited grid. -/
def topFaces (hist : Capture) : List PreFace :=
  ((List.range (bins - 1)).foldl
    (fun st j => (List.range (hist.length - 1)).foldl (topCellStep hist (flatGrid hist) j) st)
    ⟨List.replicate (hist.length - 1) (List.replicate (bins - 1) false), []⟩).faces

/-- The boundary-seam faces (lines 751-760): jBoundary =
max(0, min(bins - 2, activeRowsCount - 1)); two faces per slice column
between rows jBoundary and jBoundary + 1. -/
def seamFaces (slices : ℕ) : List PreFace :=
  let jB := max 0 (min (bins - 2) (activeRowsCount - 1))
  (List.range (slices - 1)).flatMap (fun i =>
    [⟨idxTop i jB, idxTop (i+1) jB, idxTop (i+1) (jB+1), OUT_FRONT, baseMat⟩,
     ⟨idxTop i jB, idxTop (i+1) (jB+1), idxTop i (jB+1), OUT_FRONT, baseMat⟩])

/-- The bottom-surface faces, cell by cell (lines 763-772). -/
def bottomFaces (slices : ℕ) : List PreFace :=
  (List.range (slices - 1)).flatMap (fun i =>
    (List.range (bins - 1)).flatMap (fun j =>
      [⟨idxBottom slices i j, idxBottom slices (i+1) j,
          idxBottom slices (i+1) (j+1), OUT_BOTTOM, baseMat⟩,
       ⟨idxBottom slices i j, idxBottom slices (i+1) (j+1),
          idxBottom slices i (j+1), OUT_BOTTOM, baseMat⟩]))

/-- The back wall at row j = 0 (lines 776-784). -/
def backWallFaces (slices : ℕ) : List PreFace :=
  (List.range (slices - 1)).flatMap (fun i =>
    [⟨idxTop i 0, idxBottom slices i 0, idxBottom slices (i+1) 0, OUT_BACK, baseMat⟩,
     ⟨idxTop i 0, idxBottom slices (i+1) 0, idxTop (i+1) 0, OUT_BACK, baseMat⟩])

/-- The front wall at row j = bins - 1 (lines 790-798). -/
def frontWallFaces (slices : ℕ) : List PreFace :=
  (List.range (slices - 1)).flatMap (fun i =>
    [⟨idxTop i (bins-1), idxBottom slices i (bins-1),
        idxBottom slices (i+1) (bins-1), OUT_FRONT, baseMat⟩,
     ⟨idxTop i (bins-1), idxBottom slices (i+1) (bins-1),
        idxTop (i+1) (bins-1), OUT_FRONT, baseMat⟩])

/-- The left wall at i = 0 (lines 817-825), with sideBottomLeft[j] =
indexBottom[0][j] (line 813), followed by the two extra closure faces of
lines 827-828. -/
def leftWallFaces (slices : ℕ) : List PreFace :=
  ((List.range (bins - 1)).flatMap (fun j =>
    [⟨idxTop 0 j, idxBottom slices 0 j, idxBottom slices 0 (j+1), OUT_LEFT, baseMat⟩,
     ⟨idxTop 0 j, idxBottom slices 0 (j+1), idxTop 0 (j+1), OUT_LEFT, baseMat⟩])) ++
  [⟨idxTop 0 (bins-2), idxTop 0 (bins-1), idxBottom slices 0 (bins-1), OUT_LEFT, baseMat⟩,
   ⟨idxTop 0 (bins-2), idxBottom slices 0 (bins-1), idxBottom slices 0 (bins-2), OUT_LEFT, baseMat⟩]

/-- The right wall at i = slices - 1 (lines 830-838), with
sideBottomRight[j] = indexBottom[slices - 1][j] (line 814), followed by the
two extra closure faces of lines 839-840. -/
def rightWallFaces (slices : ℕ) : List PreFace :=
  ((List.range (bins - 1)).flatMap (fun j =>
    [⟨idxTop (slices-1) j, idxBottom slices (slices-1) j,
        idxBottom slices (slices-1) (j+1), OUT_RIGHT, baseMat⟩,
     ⟨idxTop (slices-1) j, idxBottom slices (slices-1) (j+1),
        idxTop (slices-1) (j+1), OUT_RIGHT, baseMat⟩])) ++
  [⟨idxTop (slices-1) (bins-2), idxBottom slices (slices-1) (bins-2),
      idxTop (slices-1) (bins-1), OUT_RIGHT, baseMat⟩,
   ⟨idxTop (slices-1) (bins-1), idxBottom slices (slices-1) (bins-2),
      idxBottom slices (slices-1) (bins-1), OUT_RIGHT, baseMat⟩]

/-- All faces of the export, in emission order (top surface with merging,
boundary seam, bottom grid, back, front, left, right walls), before the
orientation step of emitFace. -/
def preFaces (hist : Capture) : List PreFace :=
  topFaces hist ++ seamFaces hist.length ++ bottomFaces hist.length ++
  backWallFaces hist.length ++ frontWallFaces hist.length ++
  leftWallFaces hist.length ++ rightWallFaces hist.length

/-! ## emitFace and face orientation (lines 625-640) -/

/-- A position in the real 3-space of the exported model. -/
abbrev Vec3R := ℝ × ℝ × ℝ

/-- Componentwise difference a - b. -/
def vsub (a b : Vec3R) : Vec3R := (a.1 - b.1, a.2.1 - b.2.1, a.2.2 - b.2.2)

/-- The cross product as computed componentwise in emitFace (lines 630-632). -/
def vcross (a b : Vec3R) : Vec3R :=
  (a.2.1 * b.2.2 - a.2.2 * b.2.1, a.2.2 * b.1 - a.1 * b.2.2, a.1 * b.2.1 - a.2.1 * b.1)

/-- The dot product (line 633). -/
def vdot (a b : Vec3R) : ℝ := a.1 * b.1 + a.2.1 * b.2.1 + a.2.2 * b.2.2

/-- emitFace (lines 625-640): compute the geometric normal
(p2 - p1) x (p3 - p1), dot it with the desired outward direction, keep the
caller order when the dot is >= 0 and swap the last two indices otherwise. -/
noncomputable def emitFace (p1 p2 p3 d : Vec3R) (i1 i2 i3 : ℕ) : ℕ × ℕ × ℕ :=
  if 0 ≤ vdot (vcross (vsub p2 p1) (vsub p3 p1)) d then (i1, i2, i3) else (i1, i3, i2)

/-- The dot product of the geometric normal of a stored face with a
direction, positions looked up through pos. -/
def storedNormalDot (pos : ℕ → Vec3R) (t : ℕ × ℕ × ℕ) (d : Vec3R) : ℝ :=
  vdot (vcross (vsub (pos t.2.1) (pos t.1)) (vsub (pos t.2.2) (pos t.1))) d

/-- C2. For every face emitted through emitFace, the dot product of the
geometric normal (p2 - p1) x (p3 - p1) of the stored vertex order with the
caller-supplied desired outward direction is non-negative: emitFace keeps the
given order when the dot product of the given order is >= 0 and swaps the
last two indices otherwise, so no stored face normal opposes its declared
outward direction. -/
theorem emitFace_outward (pos : ℕ → Vec3R) (d : Vec3R) (i1 i2 i3 : ℕ) :
    0 ≤ storedNormalDot pos (emitFace (pos i1) (pos i2) (pos i3) d i1 i2 i3) d := by
  unfold emitFace
  split
  · next h =>
      simpa [storedNormalDot] using h
  · next h =>
      have hneg : storedNormalDot pos (i1, i3, i2) d =
          -(vdot (vcross (vsub (pos i2) (pos i1)) (vsub (pos i3) (pos i1))) d) := by
        simp only [storedNormalDot, vdot, vcross, vsub]
        ring
      rw [hneg]
      linarith [not_le.1 h]

/-- The real-space position of 1-based vertex index idx (lines 627-629 read
vx[i-1], vy[i-1], vz[i-1]); the z coordinate is the exporter row coordinate
of the vertex row. -/
noncomputable def posOfVertex (vs : List PreVertex) (idx : ℕ) : Vec3R :=
  let pv := vs.getD (idx - 1) ⟨0, 0, 0⟩
  ((pv.x : ℝ), (pv.y : ℝ), zRowExport pv.row)

/-- Cast a rational direction to real space. -/
def castDir (d : Vec3Q) : Vec3R := ((d.1 : ℝ), (d.2.1 : ℝ), (d.2.2 : ℝ))

/-- Apply the orientation step of emitFace to one pre-face. -/
noncomputable def orientFace (vs : List PreVertex) (f : PreFace) : ℕ × ℕ × ℕ :=
  emitFace (posOfVertex vs f.i1) (posOfVertex vs f.i2) (posOfVertex vs f.i3)
    (castDir f.dir) f.i1 f.i2 f.i3

/-- The stored faces of the export: every pre-face oriented by emitFace. -/
noncomputable def objFaces (hist : Capture) : List (ℕ × ℕ × ℕ) :=
  (preFaces hist).map (orientFace (preVertices hist))

/-- buildOBJFromCaptured (lines 584-867): the full build. The source
performs no slice-count check; on an empty history it crashes with a
TypeError when reading indexBottom[0][j] at line 813 (indexBottom is empty),
modelled here as none. Every nonempty history produces the vertex and face
lists. -/
noncomputable def buildOBJFromCaptured (hist : Capture) :
    Option (List PreVertex × List (ℕ × ℕ × ℕ)) :=
  if hist.isEmpty then none else some (preVertices hist, objFaces hist)

/-! ## Watertightness: undirected edge counting -/

/-- Two unordered vertex pairs are the same edge. -/
def sameEdge (u v a b : ℕ) : Bool :=
  decide (min u v = min a b) && decide (max u v = max a b)

/-- A face triangle contains the undirected edge a-b. -/
def hasEdge (t : ℕ × ℕ × ℕ) (a b : ℕ) : Bool :=
  sameEdge t.1 t.2.1 a b || sameEdge t.1 t.2.2 a b || sameEdge t.2.1 t.2.2 a b

/-- The number of triangles of a face list incident to the undirected edge
a-b. Watertightness demands this be 0 or 2 for every vertex pair. -/
def edgeCount (faces : List (ℕ × ℕ × ℕ)) (a b : ℕ) : ℕ :=
  faces.countP (fun t => hasEdge t a b)

/-- The index triple of a pre-face before orientation. -/
def rawTri (f : PreFace) : ℕ × ℕ × ℕ := (f.i1, f.i2, f.i3)

theorem sameEdge_comm (u v a b : ℕ) : sameEdge u v a b = sameEdge v u a b := by
  unfold sameEdge
  rw [Nat.min_comm v u, Nat.max_comm v u]

theorem hasEdge_swap (i1 i2 i3 a b : ℕ) :
    hasEdge (i1, i3, i2) a b = hasEdge (i1, i2, i3) a b := by
  show (sameEdge i1 i3 a b || sameEdge i1 i2 a b || sameEdge i3 i2 a b) =
    (sameEdge i1 i2 a b || sameEdge i1 i3 a b || sameEdge i2 i3 a b)
  rw [sameEdge_comm i3 i2 a b, Bool.or_comm (sameEdge i1 i3 a b) (sameEdge i1 i2 a b)]

/-- The orientation step of emitFace never changes the undirected edges of a
face: it either keeps the triple or swaps the last two indices. -/
theorem hasEdge_orientFace (vs : List PreVertex) (f : PreFace) (a b : ℕ) :
    hasEdge (orientFace vs f) a b = hasEdge (rawTri f) a b := by
  unfold orientFace emitFace rawTri
  split
  · rfl
  · exact hasEdge_swap f.i1 f.i2 f.i3 a b

/-- Edge incidence counts of the oriented mesh equal those of the raw
emission-order triples. -/
theorem edgeCount_objFaces (hist : Capture) (a b : ℕ) :
    edgeCount (objFaces hist) a b = edgeCount ((preFaces hist).map rawTri) a b := by
  unfold objFaces edgeCount
  induction preFaces hist with
  | nil => rfl
  | cons f t ih =>
      simp only [List.map_cons, List.countP_cons, ih, hasEdge_orientFace]

/-- A slice of pointsPerSlice zero amplitudes. -/
def zeroSlice : List ℚ := List.replicate pointsPerSlice 0

/-- The minimal capture history: two all-zero slices. -/
def zeroHist2 : Capture := [zeroSlice, zeroSlice]

set_option maxHeartbeats 4000000 in
set_option maxRecDepth 10000 in
unseal Rat.add Rat.mul Rat.inv Rat.sub in
theorem edge_1_2_count_raw : edgeCount ((preFaces zeroHist2).map rawTri) 1 2 = 1 := by
  decide

/-- C1. Watertightness fails: in the mesh built from the two-slice all-zero
capture history, the undirected edge between vertices 1 and 2 (the top-grid
vertices of slice 0 at rows 0 and 1) is incident to exactly one triangle of
the whole export — the left-wall face (1, 196, 2) — instead of two. The
top surface was merged into a single flat rectangle whose corner-only
triangles skip vertex 2, so the left-wall strip along that edge has no
matching top-surface neighbour. The code comments (lines 584, 674) claim the
mesh is watertight; already this minimal all-flat history violates it,
because the rectangle merge and the seam-closure and wall-closure faces
break the two-triangles-per-edge invariant. -/
theorem export_not_watertight : edgeCount (objFaces zeroHist2) 1 2 = 1 := by
  rw [edgeCount_objFaces]
  exact edge_1_2_count_raw

/-- Counterexample for C3: the builder, applied to a one-slice history,
completes and returns a mesh; it performs no slice-count check and signals
no InsufficientData condition. -/
theorem build_succeeds_on_singleton :
    (buildOBJFromCaptured [zeroSlice]).isSome = true := rfl

/-- C3 (amended). The build operation itself never checks the history
length: it returns a mesh for every nonempty history, including a degenerate
one-slice history; only the empty history fails (the out-of-bounds read of
indexBottom[0], modelled as none). The fewer-than-2-slices condition is
checked by the export click handler, which substitutes a synthesized history
before ever invoking the builder. -/
theorem build_total_on_nonempty :
    ∀ hist : Capture, hist ≠ [] → (buildOBJFromCaptured hist).isSome = true := by
  intro hist h
  cases hist with
  | nil => exact absurd rfl h
  | cons s t => rfl

theorem build_total_on_nonempty_witness :
    (buildOBJFromCaptured zeroHist2).isSome = true :=
  build_total_on_nonempty zeroHist2 (by simp [zeroHist2])

/-! ## The export click handler and history mutation (lines 519-528, 567-582) -/

/-- synthesizeCapturedFromSurface (lines 567-582): truncate capturedSlices to
empty and refill it from the on-screen geometry. posY is the y coordinate of
each geometry vertex in vertex order; slices =
max(2, floor(totalVertices / pointsPerSlice)); row z of synthesized slice x
is clamp01(y / (depth * heightScale)) at vertex index z * slices + x. -/
def synthesizeCapturedFromSurface (posY : List ℚ) : Capture :=
  let slices := max 2 (posY.length / pointsPerSlice)
  (List.range slices).map (fun x =>
    (List.range pointsPerSlice).map (fun z =>
      max 0 (min 1 (posY.getD (z * slices + x) 0 / (depth * heightScale)))))

/-- The effect of the exportBtn click handler on capturedSlices
(lines 519-528): when the history has fewer than 2 slices the handler calls
synthesizeCapturedFromSurface, which overwrites capturedSlices with slices
sampled from the displayed geometry; otherwise the history is left as is
(buildOBJFromCaptured only reads it). -/
def exportClickHistory (hist : Capture) (posY : List ℚ) : Capture :=
  if hist.length < 2 then synthesizeCapturedFromSurface posY else hist

set_option maxRecDepth 10000 in
unseal Rat.add Rat.mul Rat.inv Rat.sub in
/-- Counterexample for C4: exporting with an empty capture history and the
256-vertex geometry left on screen after a reset (two finalized slices, all
heights zero) overwrites the history with 2 synthesized slices: afterwards
the history no longer has its previous length 0. -/
theorem export_mutates_short_history :
    exportClickHistory [] (List.replicate 256 (0 : ℚ)) ≠ ([] : Capture) ∧
    (exportClickHistory [] (List.replicate 256 (0 : ℚ))).length = 2 := by
  constructor
  · decide
  · decide

/-- C4 (amended). The export click handler leaves the capture history
unchanged, element for element, whenever it holds at least 2 slices; when it
holds fewer than 2, the handler overwrites it with the slices synthesized
from the on-screen surface before building. -/
theorem export_preserves_long_history :
    ∀ (hist : Capture) (posY : List ℚ),
      (2 ≤ hist.length → exportClickHistory hist posY = hist) ∧
      (hist.length < 2 →
        exportClickHistory hist posY = synthesizeCapturedFromSurface posY) := by
  intro hist posY
  constructor
  · intro h
    unfold exportClickHistory
    rw [if_neg (not_lt.2 h)]
  · intro h
    unfold exportClickHistory
    rw [if_pos h]

theorem export_preserves_long_history_witness :
    exportClickHistory zeroHist2 [] = zeroHist2 :=
  (export_preserves_long_history zeroHist2 []).1 (by decide)

/-- C10. The export builder forces the boundary row to amplitude zero
unconditionally: for every capture history and every slice index i, the
top-surface vertex at grid row j = activeRowsCount (the last of the
bins = activeRowsCount + 1 rows) has height exactly 0 and color
referenceColorRamp 0, even when the captured slice stores a nonzero value at
that row index; the live surface entry for the same stored value keeps its
full height a * depth * heightScale, so a strong high-frequency sample is
shown live but never reaches the exported solid. -/
theorem boundary_row_forced_flat :
    ∀ (hist : Capture) (i : ℕ),
      yTop hist i activeRowsCount = 0 ∧
      topColor hist i activeRowsCount = referenceColorRamp 0 ∧
      (surfEntry ((hist.getD i []).getD activeRowsCount 0)).1 =
        ((hist.getD i []).getD activeRowsCount 0) * depth * heightScale := by
  intro hist i
  have hamp : topAmp hist i activeRowsCount = 0 := by
    unfold topAmp
    rw [if_neg (lt_irrefl activeRowsCount)]
  refine ⟨?_, ?_, rfl⟩
  · simp only [yTop, hamp, zero_mul]
    rw [if_pos (by unfold flatEps depth heightScale; norm_num)]
  · unfold topColor
    rw [hamp]
